import Mathlib

/-!
Verification of the BabyBertSRL repository's data-preparation and
evaluation code, shallowly embedded in Lean 4.

The embedding follows the Python sources:
* `add_srl_tags.py`    — SRL corpus preparation (segmentation, instance
  generation, batch loop that collects lines, file write);
* `babybertsrl/eval.py` — perplexity and span-F1 evaluation loops;
* `babybertsrl/model_lm.py` — `LMBert.__init__` / `LMBert.forward`.

Python lists become Lean `List`s, tensors become nested lists of `ℚ`,
machinery external to the repository (the spaCy POS tagger, the
DeepSegment segmenter, the BERT encoder, the AllenNLP scorer) is kept
abstract as function parameters, and the failing division in
`evaluate_model_on_pp` is modelled with `Option`.
-/

namespace BabyBertSRL

/-! ## Python string primitives

`str.startswith`, slicing and `str.split()` are expressed through the
character list underlying a `String`, so that all definitions reduce in
the kernel. -/

/-- Python's `s.startswith(p)`. -/
def pyStartsWith (s p : String) : Bool :=
  p.data.isPrefixOf s.data

/-- Python's `s[n:]`. -/
def pyDrop (s : String) (n : ℕ) : String :=
  ⟨s.data.drop n⟩

/-- Helper for `pySplit`: scan the characters, accumulating the current
word (in reverse). -/
def pySplitAux : List Char → List Char → List String
  | [], cur => if cur = [] then [] else [⟨cur.reverse⟩]
  | c :: cs, cur =>
      if c.isWhitespace then
        if cur = [] then pySplitAux cs []
        else ⟨cur.reverse⟩ :: pySplitAux cs []
      else
        pySplitAux cs (c :: cur)

/-! ## add_srl_tags.py : make_srl_string -/

/-- One iteration of the loop in `make_srl_string`.  The state is the
pair `(frame, chunk)` of accumulated lists; the input pair is
`(token, tag)` as produced by `zip(words, tags)`. -/
def srlStringStep (st : List String × List String) (p : String × String) :
    List String × List String :=
  let frame := st.1
  let chunk := st.2
  let token := p.1
  let tag := p.2
  if pyStartsWith tag "I-" then
    (frame, chunk ++ [token])
  else
    let frame' := if chunk ≠ [] then
        frame ++ ["[" ++ String.intercalate " " chunk ++ "]"] else frame
    if pyStartsWith tag "B-" then
      (frame', [pyDrop tag 2 ++ ": " ++ token])
    else if tag = "O" then
      (frame' ++ [token], [])
    else
      (frame', [])

/-- `make_srl_string(words, tags)` from `add_srl_tags.py`: runs the
chunking loop over `zip(words, tags)`, flushes the last chunk, and joins
the frame with single spaces. -/
def make_srl_string (words : List String) (tags : List String) : String :=
  let st := (words.zip tags).foldl srlStringStep ([], [])
  let frame := if st.2 ≠ [] then
      st.1 ++ ["[" ++ String.intercalate " " st.2 ++ "]"] else st.1
  String.intercalate " " frame

/-! ## add_srl_tags.py : the batch loop collecting lines -/

/-- An SRL prediction dictionary `d` as returned by
`predictor._model.forward_on_instances`: only the `'tags'` and
`'words'` entries are used by the loop. -/
structure Pred where
  tags : List String
  words : List String
deriving Repr, DecidableEq

/-- The line built for a prediction that does contain `'B-V'`:
`f'{verb_index} {x_string} ||| {y_string}'` with
`verb_index = tags.index('B-V')`, `x_string = " ".join(words)`,
`y_string = " ".join(tags)`. -/
def make_line (d : Pred) : String :=
  toString (d.tags.indexOf "B-V") ++ " " ++
    String.intercalate " " d.words ++ " ||| " ++
    String.intercalate " " d.tags

/-- One iteration of `for d in res:` in the batch loop.  The state is
`(num_no_verb, lines)`; a prediction without `'B-V'` increments the
counter and is skipped, any other prediction appends its line. -/
def srlTagStep (st : ℕ × List String) (d : Pred) : ℕ × List String :=
  if d.tags.contains "B-V" then
    (st.1, st.2 ++ [make_line d])
  else
    (st.1 + 1, st.2)

/-- The whole collection loop of `add_srl_tags.py`, flattened over the
sequence of predictions it processes (batching does not reorder the
predictions, so the batches are concatenated). -/
def collect_lines (preds : List Pred) : ℕ × List String :=
  preds.foldl srlTagStep (0, [])

/-- The final file write: `f.write(line + '\n')` for each collected
line, i.e. the corpus file's content. -/
def write_corpus (lines : List String) : String :=
  String.join (lines.map (fun l => l ++ "\n"))

/-! ## add_srl_tags.py : instance generation -/

/-- Python's `seg.split()`: split on runs of whitespace, discarding
empty pieces. -/
def pySplit (s : String) : List String :=
  pySplitAux s.data []

/-- An AllenNLP `Instance` as built by
`predictor._dataset_reader.text_to_instance(tokens, verb_labels)`:
the token texts and the verb-indicator vector. -/
structure InstanceM where
  tokens : List String
  verb_labels : List ℕ
deriving Repr, DecidableEq

/-- `gen_instances_from_segment(seg)`: split the segment into words,
POS-tag them (the spaCy pipeline is abstracted as `pos_tag`, returning
one tag per token of the `Doc` built from `words`), and yield one
instance per verb token, whose `verb_labels` is `[0]*len(words)` with
position `i` set to `1`. -/
def gen_instances_from_segment (pos_tag : List String → List String)
    (seg : String) : List InstanceM :=
  let words := pySplit seg
  let poss := pos_tag words
  poss.enum.filterMap (fun p =>
    if p.2 = "VERB" then
      some ⟨words, (List.replicate words.length 0).set p.1 1⟩
    else
      none)

/-- `gen_instances()`: for each utterance `u`, join its words with
single spaces, segment the result with the segmentation model
(abstracted as `segment`), and yield the instances of each segment in
order.  (The `if not instances` test in the source never fires: a
generator object is always truthy.) -/
def gen_instances (pos_tag : List String → List String)
    (segment : String → List String) :
    List (List String) → List InstanceM
  | [] => []
  | u :: rest =>
      (segment (String.intercalate " " u)).flatMap
          (gen_instances_from_segment pos_tag) ++
        gen_instances pos_tag segment rest

/-! ## babybertsrl/eval.py : evaluate_model_on_pp -/

/-- A batch produced by the bucket batcher for the LM model.  Only the
`'lm_tags'` entry (a tensor whose `len` is its first dimension) is
inspected by the loop; the model's output on the batch is abstracted
below as a loss function. -/
structure LMBatch where
  lm_tags : List (List ℕ)
deriving Repr, DecidableEq

/-- One iteration of the loop of `evaluate_model_on_pp`: a batch whose
`'lm_tags'` entry does not have length `params.batch_size` is skipped,
otherwise `exp(loss)` is added to `pp_sum` and `num_steps` is
incremented.  `exp` abstracts `torch.exp`; `loss` abstracts
`model(**batch)['loss']`. -/
def ppStep (exp : ℚ → ℚ) (loss : LMBatch → ℚ) (batch_size : ℕ)
    (st : ℚ × ℕ) (batch : LMBatch) : ℚ × ℕ :=
  if batch.lm_tags.length ≠ batch_size then
    st
  else
    (st.1 + exp (loss batch), st.2 + 1)

/-- `evaluate_model_on_pp(model, params, bucket_batcher, instances)`
over the single epoch of batches.  The final `pp_sum / num_steps`
raises `ZeroDivisionError` in Python when `num_steps == 0`; this is
modelled by returning `none` in that case. -/
def evaluate_model_on_pp (exp : ℚ → ℚ) (loss : LMBatch → ℚ)
    (batch_size : ℕ) (batches : List LMBatch) : Option ℚ :=
  let st := batches.foldl (ppStep exp loss batch_size) (0, 0)
  if st.2 = 0 then none else some (st.1 / (st.2 : ℚ))

/-! ## babybertsrl/eval.py : evaluate_model_on_f1 -/

/-- One entry of `batch['metadata']` as used by
`evaluate_model_on_f1`: the `'verb_index'`, `'words'` and
`'gold_tags'` keys. -/
structure F1Meta where
  verb_index : ℕ
  words : List String
  gold_tags : List String
deriving Repr, DecidableEq

/-- A batch produced by the bucket batcher for the SRL model: the
`'tags'` entry (a tensor; only its `len` is inspected) and the
`'metadata'` entry. -/
structure F1Batch where
  tags : List (List ℕ)
  metadata : List F1Meta
deriving Repr, DecidableEq

/-- One iteration of the loop of `evaluate_model_on_f1` on a batch that
is not skipped: decode the model's predicted BIO tag sequences
(`model.decode(output_dict).pop("tags")`, abstracted as `decodeTags`),
convert predicted and gold BIO tags to CoNLL format (abstracted as
`convert`, for `convert_bio_tags_to_conll_format`), and update the span
metric (abstracted as `span_metric` on states of type `σ`). -/
def f1Step {σ γ : Type}
    (span_metric : σ → List ℕ → List (List String) → List γ → List γ → σ)
    (decodeTags : F1Batch → List (List String))
    (convert : List String → γ)
    (s : σ) (batch : F1Batch) : σ :=
  span_metric s
    (batch.metadata.map (fun m => m.verb_index))
    (batch.metadata.map (fun m => m.words))
    ((decodeTags batch).map convert)
    ((batch.metadata.map (fun m => m.gold_tags)).map convert)

/-- `evaluate_model_on_f1(model, params, srl_eval_path, bucket_batcher,
instances)`: fold the loop over the epoch's batches, skipping every
batch whose `'tags'` entry does not have length `params.batch_size`,
then return `span_metric.get_metric(reset=True)['f1-measure-overall']`
(abstracted as `get_metric` applied to the final scorer state; `init`
abstracts `SrlEvalScorer(srl_eval_path, ignore_classes=["V"])`). -/
def evaluate_model_on_f1 {σ γ : Type} (init : σ)
    (span_metric : σ → List ℕ → List (List String) → List γ → List γ → σ)
    (get_metric : σ → ℚ)
    (decodeTags : F1Batch → List (List String))
    (convert : List String → γ)
    (batch_size : ℕ) (batches : List F1Batch) : ℚ :=
  get_metric (batches.foldl (fun s batch =>
    if batch.tags.length ≠ batch_size then s
    else f1Step span_metric decodeTags convert s batch) init)

/-! ## babybertsrl/model_lm.py : LMBert -/

/-- The AllenNLP `Vocabulary` as used by `LMBert.__init__`: only the
size of the `'labels'` namespace matters. -/
structure VocabM where
  labels_size : ℕ
deriving Repr, DecidableEq

/-- The state of `LMBert` relevant to `forward`: `num_out` (set to
`vocab.get_vocab_size('labels')` in `__init__`) and the parameters of
the single `Linear(hidden_size, num_out)` projection layer. -/
structure LMBertM where
  num_out : ℕ
  weight : List (List ℚ)
  bias : List ℚ
deriving Repr, DecidableEq

/-- `LMBert.__init__`: `self.num_out = self.vocab.get_vocab_size('labels')`
and `self.projection_layer = Linear(hidden_size, num_out)` with the
given parameters. -/
def LMBert_init (vocab : VocabM) (weight : List (List ℚ)) (bias : List ℚ) :
    LMBertM :=
  { num_out := vocab.labels_size, weight := weight, bias := bias }

/-- Dot product of two rational vectors (the contraction performed by
`torch.nn.Linear` for one output unit). -/
def dotQ (xs ys : List ℚ) : ℚ :=
  ((xs.zip ys).map (fun p => p.1 * p.2)).sum

/-- Application of the projection layer to one position's hidden
vector: one output per (weight row, bias) pair. -/
def linearQ (m : LMBertM) (x : List ℚ) : List ℚ :=
  (m.weight.zip m.bias).map (fun p => dotQ p.1 x + p.2)

/-- `F.softmax(v, dim=-1)` on one position's logit vector, with
`torch.exp` abstracted as `exp`. -/
def softmaxQ (exp : ℚ → ℚ) (v : List ℚ) : List ℚ :=
  v.map (fun x => exp x / (v.map exp).sum)

/-- The part of `LMBert.forward`'s output dictionary that the claim is
about. -/
structure LMForwardOut where
  logits : List (List (List ℚ))
  class_probabilities : List (List (List ℚ))
deriving Repr, DecidableEq

/-- `LMBert.forward`: apply dropout elementwise to the BERT embeddings
(a tensor of shape `(batch_size, sequence_length, hidden_size)`,
abstracted as the elementwise map `dropout`), project each position
with the linear layer to get `logits`, and set `class_probabilities`
to the softmax of `logits` over the last dimension (the source's
`view(-1, num_out)` / `softmax(dim=-1)` / `view(batch, seq, num_out)`
round-trip acts independently on each position's vector). -/
def LMBert_forward (exp : ℚ → ℚ) (m : LMBertM) (dropout : ℚ → ℚ)
    (bert_embeddings : List (List (List ℚ))) : LMForwardOut :=
  let embedded := bert_embeddings.map (fun seq => seq.map (fun v => v.map dropout))
  let logits := embedded.map (fun seq => seq.map (linearQ m))
  { logits := logits,
    class_probabilities := logits.map (fun seq => seq.map (softmaxQ exp)) }

/-! ## General helper lemmas -/

/-- Folding with a step that skips elements failing `p` is folding over
the filtered list. -/
lemma foldl_skip_eq_foldl_filter {α β : Type} (g : β → α → β) (p : α → Bool) :
    ∀ (l : List α) (b : β),
      l.foldl (fun s x => if p x = false then s else g s x) b
        = (l.filter p).foldl g b
  | [], _ => rfl
  | x :: l, b => by
      by_cases hx : p x
      · simp only [List.foldl_cons, hx, List.filter_cons_of_pos hx]
        exact foldl_skip_eq_foldl_filter g p l (g b x)
      · simp only [List.foldl_cons, List.filter_cons_of_neg (by simpa using hx)]
        simp only [Bool.not_eq_true] at hx
        simp only [hx]
        exact foldl_skip_eq_foldl_filter g p l b

/-- Positions strictly before `l.indexOf a` do not hold `a`. -/
lemma getElem?_ne_of_lt_indexOf {α : Type} [DecidableEq α] (a : α) :
    ∀ (l : List α) (j : ℕ), j < l.indexOf a → l[j]? ≠ some a
  | [], j, h => by simp [List.indexOf] at h
  | b :: l, j, h => by
      by_cases hb : b = a
      · subst hb
        simp [List.indexOf_cons_self] at h
      · cases j with
        | zero => simpa using hb
        | succ j =>
            rw [List.indexOf_cons_ne _ hb] at h
            simpa using getElem?_ne_of_lt_indexOf a l j (Nat.lt_of_succ_lt_succ h)

/-- Closed form of the collection loop: the final counter adds the
number of predictions without `'B-V'`, and the final lines are the
initial lines followed by one line per prediction with `'B-V'`, in
order. -/
lemma srlTagStep_foldl (l : List Pred) :
    ∀ (n : ℕ) (ls : List String),
      l.foldl srlTagStep (n, ls)
        = (n + (l.filter (fun p => !(p.tags.contains "B-V"))).length,
           ls ++ (l.filter (fun p => p.tags.contains "B-V")).map make_line) := by
  induction l with
  | nil => intro n ls; simp
  | cons d l ih =>
      intro n ls
      by_cases hd : "B-V" ∈ d.tags
      · simp [srlTagStep, hd, List.filter_cons, ih]
      · simp [srlTagStep, hd, List.filter_cons, ih, Nat.add_comm,
          Nat.add_assoc, Nat.add_left_comm]

/-- **C1.** A prediction whose tags contain `'B-V'` appends exactly one
line to the collected lines, of the form
`'<verb_index> <words joined by spaces> ||| <tags joined by spaces>'`,
where the verb index is the position of the first occurrence of
`'B-V'` in the tag list; and the corpus file consists of every
collected line followed by a newline. -/
theorem line_appended_for_BV_prediction (preds : List Pred) (d : Pred)
    (h : d.tags.contains "B-V" = true) :
    (collect_lines (preds ++ [d])).2
        = (collect_lines preds).2 ++
          [toString (d.tags.indexOf "B-V") ++ " " ++
            String.intercalate " " d.words ++ " ||| " ++
            String.intercalate " " d.tags]
      ∧ d.tags[d.tags.indexOf "B-V"]? = some "B-V"
      ∧ (∀ j, j < d.tags.indexOf "B-V" → d.tags[j]? ≠ some "B-V")
      ∧ write_corpus (collect_lines (preds ++ [d])).2
          = String.join (((collect_lines (preds ++ [d])).2).map
              (fun l => l ++ "\n")) := by
  have hm : "B-V" ∈ d.tags := by simpa using h
  refine ⟨?_, List.getElem?_indexOf hm,
    fun j hj => getElem?_ne_of_lt_indexOf _ _ _ hj, rfl⟩
  simp [collect_lines, List.foldl_append, srlTagStep, hm, make_line]

/-- Witness for C1 at a concrete prediction. -/
theorem line_appended_for_BV_prediction_witness :
    (Pred.mk ["B-ARG0", "B-V"] ["dog", "ran"]).tags.contains "B-V" = true
      ∧ ((collect_lines ([] ++ [⟨["B-ARG0", "B-V"], ["dog", "ran"]⟩])).2
            = (collect_lines []).2 ++
              [toString ((Pred.mk ["B-ARG0", "B-V"] ["dog", "ran"]).tags.indexOf "B-V") ++ " " ++
                String.intercalate " " (Pred.mk ["B-ARG0", "B-V"] ["dog", "ran"]).words ++ " ||| " ++
                String.intercalate " " (Pred.mk ["B-ARG0", "B-V"] ["dog", "ran"]).tags]
          ∧ (Pred.mk ["B-ARG0", "B-V"] ["dog", "ran"]).tags[
              (Pred.mk ["B-ARG0", "B-V"] ["dog", "ran"]).tags.indexOf "B-V"]? = some "B-V"
          ∧ (∀ j, j < (Pred.mk ["B-ARG0", "B-V"] ["dog", "ran"]).tags.indexOf "B-V" →
              (Pred.mk ["B-ARG0", "B-V"] ["dog", "ran"]).tags[j]? ≠ some "B-V")
          ∧ write_corpus (collect_lines ([] ++ [⟨["B-ARG0", "B-V"], ["dog", "ran"]⟩])).2
              = String.join
                  (((collect_lines ([] ++ [⟨["B-ARG0", "B-V"], ["dog", "ran"]⟩])).2).map
                    (fun l => l ++ "\n"))) :=
  ⟨rfl, line_appended_for_BV_prediction [] ⟨["B-ARG0", "B-V"], ["dog", "ran"]⟩ rfl⟩

/-- **C7.** A prediction whose tags do not contain `'B-V'` contributes
no line and increments the skipped counter by exactly one; every
collected line is the line of a prediction whose tags contain `'B-V'`,
and the number of collected lines equals the number of such
predictions. -/
theorem no_BV_prediction_skipped (preds : List Pred) (d : Pred)
    (h : d.tags.contains "B-V" = false) :
    collect_lines (preds ++ [d])
        = ((collect_lines preds).1 + 1, (collect_lines preds).2)
      ∧ (collect_lines (preds ++ [d])).2
          = ((preds ++ [d]).filter (fun p => p.tags.contains "B-V")).map make_line
      ∧ (collect_lines (preds ++ [d])).2.length
          = ((preds ++ [d]).filter (fun p => p.tags.contains "B-V")).length := by
  have hm : "B-V" ∉ d.tags := by simpa using h
  refine ⟨?_, ?_, ?_⟩
  · simp [collect_lines, List.foldl_append, srlTagStep, hm]
  · simp [collect_lines, srlTagStep_foldl, srlTagStep, hm, List.filter_cons]
  · simp [collect_lines, srlTagStep_foldl, srlTagStep, hm, List.filter_cons]

/-- Witness for C7 at a concrete prediction. -/
theorem no_BV_prediction_skipped_witness :
    (Pred.mk ["O"] ["hi"]).tags.contains "B-V" = false
      ∧ (collect_lines ([Pred.mk ["B-V"] ["go"]] ++ [Pred.mk ["O"] ["hi"]])
            = ((collect_lines [Pred.mk ["B-V"] ["go"]]).1 + 1,
               (collect_lines [Pred.mk ["B-V"] ["go"]]).2)
          ∧ (collect_lines ([Pred.mk ["B-V"] ["go"]] ++ [Pred.mk ["O"] ["hi"]])).2
              = (([Pred.mk ["B-V"] ["go"]] ++ [Pred.mk ["O"] ["hi"]]).filter
                  (fun p => p.tags.contains "B-V")).map make_line
          ∧ (collect_lines ([Pred.mk ["B-V"] ["go"]] ++ [Pred.mk ["O"] ["hi"]])).2.length
              = (([Pred.mk ["B-V"] ["go"]] ++ [Pred.mk ["O"] ["hi"]]).filter
                  (fun p => p.tags.contains "B-V")).length) :=
  ⟨rfl, no_BV_prediction_skipped [Pred.mk ["B-V"] ["go"]] (Pred.mk ["O"] ["hi"]) rfl⟩

/-- **C9 counterexample.** On equal-length lists `["a", "a"]` /
`["O", "X"]`, the tag `"X"` at position 1 is neither `"O"` nor
`"B-"`-prefixed nor `"I-"`-prefixed, yet the word `"a"` at that
position does appear in the returned string — the output is exactly
`"a"`. -/
theorem make_srl_string_bad_tag_word_appears :
    (["a", "a"] : List String).length = (["O", "X"] : List String).length
      ∧ ¬("X" = "O" ∨ pyStartsWith "X" "B-" = true ∨ pyStartsWith "X" "I-" = true)
      ∧ (["O", "X"] : List String)[1]? = some "X"
      ∧ (["a", "a"] : List String)[1]? = some "a"
      ∧ make_srl_string ["a", "a"] ["O", "X"] = "a" := by
  decide

/-- A loop iteration on a pair whose tag is neither `"O"` nor
`"B-"`-prefixed nor `"I-"`-prefixed ignores the token. -/
lemma srlStringStep_bad_tag (st : List String × List String) (w w' tag : String)
    (ht : ¬(tag = "O" ∨ pyStartsWith tag "B-" = true ∨
        pyStartsWith tag "I-" = true)) :
    srlStringStep st (w, tag) = srlStringStep st (w', tag) := by
  push_neg at ht
  obtain ⟨h1, h2, h3⟩ := ht
  simp [srlStringStep, h1, h2, h3]

/-- Replacing the word under a tag outside the three handled classes
does not change the loop's result, whatever the accumulator. -/
lemma foldl_srlStringStep_set (w' : String) :
    ∀ (words tags : List String) (i : ℕ) (st : List String × List String)
      (hi : i < tags.length),
      ¬(tags[i] = "O" ∨ pyStartsWith tags[i] "B-" = true ∨
          pyStartsWith tags[i] "I-" = true) →
      ((words.set i w').zip tags).foldl srlStringStep st
        = (words.zip tags).foldl srlStringStep st := by
  intro words
  induction words with
  | nil => intro tags i st hi ht; rfl
  | cons w ws ih =>
      intro tags i st hi ht
      cases tags with
      | nil => simp at hi
      | cons t ts =>
          cases i with
          | zero =>
              simp only [List.set_cons_zero, List.zip_cons_cons, List.foldl_cons]
              rw [srlStringStep_bad_tag st w' w t (by simpa using ht)]
          | succ i =>
              simp only [List.set_cons_succ, List.zip_cons_cons, List.foldl_cons]
              exact ih ts i (srlStringStep st (w, t)) (by simpa using hi)
                (by simpa using ht)

/-- **C9 (amended).** For every pair of equal-length word and tag
lists, a word whose tag is neither `'O'` nor prefixed by `'B-'` nor
prefixed by `'I-'` contributes nothing to the string returned by
`make_srl_string`: replacing it by any other word leaves the output
unchanged. -/
theorem make_srl_string_bad_tag_noninterference
    (words tags : List String) (i : ℕ) (w' : String)
    (_hlen : words.length = tags.length) (hi : i < tags.length)
    (ht : ¬(tags[i] = "O" ∨ pyStartsWith tags[i] "B-" = true ∨
        pyStartsWith tags[i] "I-" = true)) :
    make_srl_string (words.set i w') tags = make_srl_string words tags := by
  unfold make_srl_string
  rw [foldl_srlStringStep_set w' words tags i ([], []) hi ht]

/-- Witness for the amended C9 at a concrete input. -/
theorem make_srl_string_bad_tag_noninterference_witness :
    (["a", "b"] : List String).length = (["O", "X"] : List String).length
      ∧ 1 < (["O", "X"] : List String).length
      ∧ ¬((["O", "X"] : List String)[1] = "O" ∨
          pyStartsWith (["O", "X"] : List String)[1] "B-" = true ∨
          pyStartsWith (["O", "X"] : List String)[1] "I-" = true)
      ∧ make_srl_string ((["a", "b"] : List String).set 1 "c") ["O", "X"]
          = make_srl_string ["a", "b"] ["O", "X"] :=
  ⟨by decide, by decide, by decide,
    make_srl_string_bad_tag_noninterference ["a", "b"] ["O", "X"] 1 "c"
      (by decide) (by decide) (by decide)⟩

/-- Closed form of the perplexity loop: the accumulator sums
`exp(loss)` over the kept batches and counts them. -/
lemma ppStep_foldl (exp : ℚ → ℚ) (loss : LMBatch → ℚ) (bs : ℕ) :
    ∀ (l : List LMBatch) (s : ℚ) (n : ℕ),
      l.foldl (ppStep exp loss bs) (s, n)
        = (s + ((l.filter (fun b => b.lm_tags.length = bs)).map
              (fun b => exp (loss b))).sum,
           n + (l.filter (fun b => b.lm_tags.length = bs)).length) := by
  intro l
  induction l with
  | nil => intro s n; simp
  | cons b l ih =>
      intro s n
      by_cases hb : b.lm_tags.length = bs
      · simp [ppStep, hb, List.filter_cons, ih, add_comm, add_assoc, add_left_comm]
      · simp [ppStep, hb, List.filter_cons, ih]

/-- **C2.** `evaluate_model_on_pp` processes exactly the batches whose
`'lm_tags'` entry has length `params.batch_size` and, provided at
least one such batch exists, returns the arithmetic mean of
`exp(loss)` over them. -/
theorem evaluate_model_on_pp_mean (exp : ℚ → ℚ) (loss : LMBatch → ℚ)
    (bs : ℕ) (batches : List LMBatch)
    (h : batches.filter (fun b => b.lm_tags.length = bs) ≠ []) :
    evaluate_model_on_pp exp loss bs batches
      = some ((((batches.filter (fun b => b.lm_tags.length = bs)).map
            (fun b => exp (loss b))).sum)
          / ((batches.filter (fun b => b.lm_tags.length = bs)).length : ℚ)) := by
  have hlen : (batches.filter (fun b => b.lm_tags.length = bs)).length ≠ 0 := by
    simpa [List.length_eq_zero] using h
  rw [evaluate_model_on_pp, ppStep_foldl]
  simp [hlen]

/-- Witness for C2: two batches, one of full size, mean evaluated. -/
theorem evaluate_model_on_pp_mean_witness :
    ([LMBatch.mk [[5]], LMBatch.mk []].filter
        (fun b => b.lm_tags.length = 1) ≠ [])
      ∧ evaluate_model_on_pp (fun x => x * x)
          (fun b => (b.lm_tags.length : ℚ) + 1) 1
          [LMBatch.mk [[5]], LMBatch.mk []]
          = some (((([LMBatch.mk [[5]], LMBatch.mk []].filter
                (fun b => b.lm_tags.length = 1)).map
                (fun b => (fun x => x * x) (((b.lm_tags.length : ℚ)) + 1))).sum)
              / (([LMBatch.mk [[5]], LMBatch.mk []].filter
                (fun b => b.lm_tags.length = 1)).length : ℚ)) :=
  ⟨by decide,
    evaluate_model_on_pp_mean (fun x => x * x)
      (fun b => (b.lm_tags.length : ℚ) + 1) 1
      [LMBatch.mk [[5]], LMBatch.mk []] (by decide)⟩

/-- **C8.** `evaluate_model_on_pp` divides the accumulated sum by the
number of processed batches, and the division fails (the result is
`none`, i.e. Python's `ZeroDivisionError`) precisely when no batch of
the epoch has an `'lm_tags'` entry of length `params.batch_size`. -/
theorem evaluate_model_on_pp_none_iff (exp : ℚ → ℚ) (loss : LMBatch → ℚ)
    (bs : ℕ) (batches : List LMBatch) :
    evaluate_model_on_pp exp loss bs batches = none
      ↔ ∀ b ∈ batches, b.lm_tags.length ≠ bs := by
  rw [evaluate_model_on_pp]
  rw [ppStep_foldl]
  simp [List.length_eq_zero, List.filter_eq_nil_iff]

/-- **C3.** `evaluate_model_on_f1` returns the `'f1-measure-overall'`
value of the span metric accumulated over exactly those batches whose
`'tags'` entry has length `params.batch_size`; each processed batch
updates the metric with the decoded predicted BIO tag sequences and
the gold BIO tag sequences from the metadata, both converted to CoNLL
format. -/
theorem evaluate_model_on_f1_filter {σ γ : Type} (init : σ)
    (span_metric : σ → List ℕ → List (List String) → List γ → List γ → σ)
    (get_metric : σ → ℚ)
    (decodeTags : F1Batch → List (List String))
    (convert : List String → γ)
    (bs : ℕ) (batches : List F1Batch) :
    evaluate_model_on_f1 init span_metric get_metric decodeTags convert bs batches
      = get_metric ((batches.filter (fun b => b.tags.length = bs)).foldl
          (fun s batch => span_metric s
            (batch.metadata.map (fun m => m.verb_index))
            (batch.metadata.map (fun m => m.words))
            ((decodeTags batch).map convert)
            ((batch.metadata.map (fun m => m.gold_tags)).map convert)) init) := by
  have h2 : ∀ (l : List F1Batch) (s : σ),
      l.foldl (fun s batch => if batch.tags.length ≠ bs then s
          else f1Step span_metric decodeTags convert s batch) s
        = (l.filter (fun b => b.tags.length = bs)).foldl
            (fun s batch => span_metric s
              (batch.metadata.map (fun m => m.verb_index))
              (batch.metadata.map (fun m => m.words))
              ((decodeTags batch).map convert)
              ((batch.metadata.map (fun m => m.gold_tags)).map convert)) s := by
    intro l
    induction l with
    | nil => intro s; rfl
    | cons b l ih =>
        intro s
        simp only [List.foldl_cons]
        by_cases hb : b.tags.length = bs
        · rw [List.filter_cons_of_pos (by simpa using hb), List.foldl_cons,
            if_neg (by simp [hb])]
          exact ih (f1Step span_metric decodeTags convert s b)
        · rw [List.filter_cons_of_neg (by simpa using hb), if_pos hb]
          exact ih s
  rw [evaluate_model_on_f1, h2]

/-- A `filterMap` whose function is a guarded `some` is a `filter`
followed by a `map`. -/
lemma filterMap_ite {α β : Type} (q : α → Prop) [DecidablePred q] (f : α → β) :
    ∀ l : List α,
      (l.filterMap (fun x => if q x then some (f x) else none))
        = (l.filter (fun x => q x)).map f := by
  intro l
  induction l with
  | nil => rfl
  | cons a l ih =>
      by_cases ha : q a
      · simp [List.filterMap_cons, List.filter_cons, ha, ih]
      · simp [List.filterMap_cons, List.filter_cons, ha, ih]

/-- **C5.** Provided the POS tagger returns one tag per word (spaCy's
`Doc(words=...)` guarantee), `gen_instances_from_segment` yields
exactly one instance per enumerated token whose POS tag is `'VERB'`,
in token order; each instance carries the segment's words and a
`verb_labels` vector of length equal to the number of words, holding
`1` at the verb's position and `0` at every other position. -/
theorem gen_instances_from_segment_one_per_verb
    (pos_tag : List String → List String) (seg : String)
    (h : (pos_tag (pySplit seg)).length = (pySplit seg).length) :
    gen_instances_from_segment pos_tag seg
        = (((pos_tag (pySplit seg)).enum.filter (fun p => p.2 = "VERB")).map
            (fun p => ⟨pySplit seg,
              (List.replicate (pySplit seg).length 0).set p.1 1⟩))
      ∧ (∀ inst ∈ gen_instances_from_segment pos_tag seg,
          inst.tokens = pySplit seg ∧
          inst.verb_labels.length = (pySplit seg).length)
      ∧ (∀ p ∈ (pos_tag (pySplit seg)).enum, p.2 = "VERB" →
          ((List.replicate (pySplit seg).length 0).set p.1 1)[p.1]? = some 1
          ∧ ∀ j < (pySplit seg).length, j ≠ p.1 →
              ((List.replicate (pySplit seg).length 0).set p.1 1)[j]? = some 0) := by
  have heq : gen_instances_from_segment pos_tag seg
      = (((pos_tag (pySplit seg)).enum.filter (fun p => p.2 = "VERB")).map
          (fun p => ⟨pySplit seg,
            (List.replicate (pySplit seg).length 0).set p.1 1⟩)) := by
    rw [gen_instances_from_segment]
    exact filterMap_ite (fun p : ℕ × String => p.2 = "VERB") _ _
  refine ⟨heq, ?_, ?_⟩
  · intro inst hinst
    rw [heq] at hinst
    obtain ⟨p, _, rfl⟩ := List.mem_map.mp hinst
    exact ⟨rfl, by simp⟩
  · intro p hp _
    have hget : (pos_tag (pySplit seg))[p.1]? = some p.2 :=
      List.mem_enum_iff_getElem?.mp hp
    have hlt : p.1 < (pos_tag (pySplit seg)).length :=
      (List.getElem?_eq_some_iff.mp hget).1
    rw [h] at hlt
    constructor
    · rw [List.getElem?_set_self (by simpa using hlt)]
    · intro j hj hne
      rw [List.getElem?_set_ne (fun hc => hne hc.symm)]
      exact List.getElem?_replicate_of_lt hj

/-- Witness for C5: a one-word segment tagged as a verb. -/
theorem gen_instances_from_segment_one_per_verb_witness :
    ((fun ws : List String => ws.map (fun _ => "VERB")) (pySplit "go")).length
        = (pySplit "go").length
      ∧ (gen_instances_from_segment (fun ws : List String => ws.map (fun _ => "VERB")) "go"
            = ((((fun ws : List String => ws.map (fun _ => "VERB")) (pySplit "go")).enum.filter
                (fun p => p.2 = "VERB")).map
                (fun p => ⟨pySplit "go",
                  (List.replicate (pySplit "go").length 0).set p.1 1⟩))
          ∧ (∀ inst ∈ gen_instances_from_segment
                (fun ws : List String => ws.map (fun _ => "VERB")) "go",
              inst.tokens = pySplit "go" ∧
              inst.verb_labels.length = (pySplit "go").length)
          ∧ (∀ p ∈ ((fun ws : List String => ws.map (fun _ => "VERB")) (pySplit "go")).enum,
              p.2 = "VERB" →
              ((List.replicate (pySplit "go").length 0).set p.1 1)[p.1]? = some 1
              ∧ ∀ j < (pySplit "go").length, j ≠ p.1 →
                  ((List.replicate (pySplit "go").length 0).set p.1 1)[j]?
                    = some 0)) :=
  ⟨by decide,
    gen_instances_from_segment_one_per_verb
      (fun ws : List String => ws.map (fun _ => "VERB")) "go" (by decide)⟩

/-- The loop of `gen_instances` flattens, per utterance, the instances
of the segments of the space-joined words. -/
lemma gen_instances_eq_flatMap (pos_tag : List String → List String)
    (segment : String → List String) :
    ∀ utterances : List (List String),
      gen_instances pos_tag segment utterances
        = utterances.flatMap (fun u =>
            (segment (String.intercalate " " u)).flatMap
              (gen_instances_from_segment pos_tag))
  | [] => rfl
  | u :: rest => by
      rw [gen_instances, List.flatMap_cons,
        gen_instances_eq_flatMap pos_tag segment rest]

/-- **C6.** `gen_instances` joins each utterance's words with single
spaces, segments the result, and yields the instances of each segment
in order; hence every instance sent to the SRL predictor originates
from a segment of some utterance. -/
theorem gen_instances_provenance (pos_tag : List String → List String)
    (segment : String → List String) (utterances : List (List String))
    (inst : InstanceM)
    (h : inst ∈ gen_instances pos_tag segment utterances) :
    gen_instances pos_tag segment utterances
        = utterances.flatMap (fun u =>
            (segment (String.intercalate " " u)).flatMap
              (gen_instances_from_segment pos_tag))
      ∧ ∃ u ∈ utterances, ∃ sg ∈ segment (String.intercalate " " u),
          inst ∈ gen_instances_from_segment pos_tag sg := by
  refine ⟨gen_instances_eq_flatMap pos_tag segment utterances, ?_⟩
  rw [gen_instances_eq_flatMap pos_tag segment utterances] at h
  simpa [List.mem_flatMap] using h

/-- Witness for C6: a one-utterance corpus with identity segmentation. -/
theorem gen_instances_provenance_witness :
    (⟨["go"], [1]⟩ : InstanceM) ∈ gen_instances
        (fun ws : List String => ws.map (fun _ => "VERB"))
        (fun s => [s]) [["go"]]
      ∧ (gen_instances (fun ws : List String => ws.map (fun _ => "VERB"))
            (fun s => [s]) [["go"]]
            = ([["go"]] : List (List String)).flatMap (fun u =>
                ((fun s => [s]) (String.intercalate " " u)).flatMap
                  (gen_instances_from_segment
                    (fun ws : List String => ws.map (fun _ => "VERB"))))
          ∧ ∃ u ∈ ([["go"]] : List (List String)),
              ∃ sg ∈ (fun s => [s]) (String.intercalate " " u),
                (⟨["go"], [1]⟩ : InstanceM) ∈ gen_instances_from_segment
                  (fun ws : List String => ws.map (fun _ => "VERB")) sg) :=
  ⟨by decide,
    gen_instances_provenance (fun ws : List String => ws.map (fun _ => "VERB"))
      (fun s => [s]) [["go"]] ⟨["go"], [1]⟩ (by decide)⟩

/-- Softmax of a nonempty vector under a positive `exp`: same length,
non-negative entries, and entries summing to `1`. -/
lemma softmaxQ_spec (exp : ℚ → ℚ) (hexp : ∀ x, 0 < exp x)
    (w : List ℚ) (hw : w ≠ []) :
    (softmaxQ exp w).length = w.length
      ∧ (∀ x ∈ softmaxQ exp w, 0 ≤ x)
      ∧ (softmaxQ exp w).sum = 1 := by
  have hS : 0 < (w.map exp).sum := by
    refine List.sum_pos _ ?_ (by simpa using hw)
    intro x hx
    obtain ⟨a, _, rfl⟩ := List.mem_map.mp hx
    exact hexp a
  refine ⟨by simp [softmaxQ], ?_, ?_⟩
  · intro x hx
    obtain ⟨a, _, rfl⟩ := List.mem_map.mp hx
    exact div_nonneg (hexp a).le hS.le
  · unfold softmaxQ
    rw [show (fun x => exp x / (w.map exp).sum)
        = (fun x => exp x * ((w.map exp).sum)⁻¹) from
      funext fun x => div_eq_mul_inv _ _]
    rw [List.sum_map_mul_right]
    exact mul_inv_cancel₀ hS.ne'

/-- The projection layer emits one logit per (weight row, bias entry)
pair. -/
lemma linearQ_length (m : LMBertM) (x : List ℚ) :
    (linearQ m x).length = min m.weight.length m.bias.length := by
  simp [linearQ]

/-- **C4.** For every forward pass of `LMBert`, `'logits'` has shape
`(batch_size, sequence_length, N)` with `N` the size of the
vocabulary's `'labels'` namespace, and is the image of the
dropout-applied BERT embeddings under the single linear projection
layer; `'class_probabilities'` is the softmax of `'logits'` over the
last dimension, so at every position the probabilities are
non-negative and sum to `1`. -/
theorem LMBert_forward_spec (vocab : VocabM) (weight : List (List ℚ))
    (bias : List ℚ) (exp dropout : ℚ → ℚ) (emb : List (List (List ℚ)))
    (hW : weight.length = vocab.labels_size)
    (hb : bias.length = vocab.labels_size)
    (hexp : ∀ x, 0 < exp x)
    (hn : 0 < vocab.labels_size) :
    (LMBert_forward exp (LMBert_init vocab weight bias) dropout emb).logits.length
        = emb.length
      ∧ (LMBert_forward exp (LMBert_init vocab weight bias) dropout emb).logits.map
            List.length
          = emb.map List.length
      ∧ (∀ sq ∈ (LMBert_forward exp (LMBert_init vocab weight bias) dropout
            emb).logits, ∀ v ∈ sq, v.length = vocab.labels_size)
      ∧ (LMBert_forward exp (LMBert_init vocab weight bias) dropout emb).logits
          = emb.map (fun sq => sq.map (fun v =>
              linearQ (LMBert_init vocab weight bias) (v.map dropout)))
      ∧ (LMBert_forward exp (LMBert_init vocab weight bias) dropout
            emb).class_probabilities
          = (LMBert_forward exp (LMBert_init vocab weight bias) dropout
              emb).logits.map (fun sq => sq.map (softmaxQ exp))
      ∧ (∀ sq ∈ (LMBert_forward exp (LMBert_init vocab weight bias) dropout
            emb).class_probabilities, ∀ v ∈ sq,
          v.length = vocab.labels_size ∧ (∀ x ∈ v, 0 ≤ x) ∧ v.sum = 1) := by
  have hlenlin : ∀ x : List ℚ,
      (linearQ (LMBert_init vocab weight bias) x).length = vocab.labels_size := by
    intro x
    rw [linearQ_length]
    simp [LMBert_init, hW, hb]
  have hd : (LMBert_forward exp (LMBert_init vocab weight bias) dropout emb).logits
      = emb.map (fun sq => sq.map (fun v =>
          linearQ (LMBert_init vocab weight bias) (v.map dropout))) := by
    simp [LMBert_forward, List.map_map, Function.comp]
  refine ⟨?_, ?_, ?_, hd, rfl, ?_⟩
  · rw [hd]; simp
  · rw [hd]; simp [List.map_map, Function.comp]
  · intro sq hsq v hv
    rw [hd] at hsq
    obtain ⟨sq0, _, rfl⟩ := List.mem_map.mp hsq
    obtain ⟨v0, _, rfl⟩ := List.mem_map.mp hv
    exact hlenlin _
  · intro sq hsq v hv
    have hcp : (LMBert_forward exp (LMBert_init vocab weight bias) dropout
        emb).class_probabilities
        = (emb.map (fun sq => sq.map (fun v =>
            linearQ (LMBert_init vocab weight bias) (v.map dropout)))).map
            (fun sq => sq.map (softmaxQ exp)) := by
      rw [← hd]
      rfl
    rw [hcp] at hsq
    obtain ⟨sq0, hsq0, rfl⟩ := List.mem_map.mp hsq
    obtain ⟨sq1, hsq1, rfl⟩ := List.mem_map.mp hsq0
    obtain ⟨w0, hw0, rfl⟩ := List.mem_map.mp hv
    obtain ⟨v0, hv0, rfl⟩ := List.mem_map.mp hw0
    have hlw : (linearQ (LMBert_init vocab weight bias) (v0.map dropout)).length
        = vocab.labels_size := hlenlin _
    have hne : linearQ (LMBert_init vocab weight bias) (v0.map dropout) ≠ [] := by
      refine List.ne_nil_of_length_pos ?_
      rw [hlw]
      exact hn
    obtain ⟨hlen, hnonneg, hsum⟩ := softmaxQ_spec exp hexp _ hne
    exact ⟨by rw [hlen, hlw], hnonneg, hsum⟩

/-- Witness for C4: a one-layer, one-label model on a single
embedding. -/
theorem LMBert_forward_spec_witness :
    (([[(1 : ℚ)]] : List (List ℚ)).length = (VocabM.mk 1).labels_size
      ∧ ([(0 : ℚ)] : List ℚ).length = (VocabM.mk 1).labels_size
      ∧ (∀ x : ℚ, 0 < (fun _ : ℚ => (1 : ℚ)) x)
      ∧ 0 < (VocabM.mk 1).labels_size)
      ∧ ((LMBert_forward (fun _ : ℚ => (1 : ℚ))
            (LMBert_init (VocabM.mk 1) [[(1 : ℚ)]] [(0 : ℚ)])
            (fun x : ℚ => x) [[[(2 : ℚ)]]]).logits.length
          = ([[[(2 : ℚ)]]] : List (List (List ℚ))).length
        ∧ (LMBert_forward (fun _ : ℚ => (1 : ℚ))
            (LMBert_init (VocabM.mk 1) [[(1 : ℚ)]] [(0 : ℚ)])
            (fun x : ℚ => x) [[[(2 : ℚ)]]]).logits.map List.length
          = ([[[(2 : ℚ)]]] : List (List (List ℚ))).map List.length
        ∧ (∀ sq ∈ (LMBert_forward (fun _ : ℚ => (1 : ℚ))
              (LMBert_init (VocabM.mk 1) [[(1 : ℚ)]] [(0 : ℚ)])
              (fun x : ℚ => x) [[[(2 : ℚ)]]]).logits,
            ∀ v ∈ sq, v.length = (VocabM.mk 1).labels_size)
        ∧ (LMBert_forward (fun _ : ℚ => (1 : ℚ))
            (LMBert_init (VocabM.mk 1) [[(1 : ℚ)]] [(0 : ℚ)])
            (fun x : ℚ => x) [[[(2 : ℚ)]]]).logits
          = ([[[(2 : ℚ)]]] : List (List (List ℚ))).map (fun sq => sq.map (fun v =>
              linearQ (LMBert_init (VocabM.mk 1) [[(1 : ℚ)]] [(0 : ℚ)])
                (v.map (fun x : ℚ => x))))
        ∧ (LMBert_forward (fun _ : ℚ => (1 : ℚ))
            (LMBert_init (VocabM.mk 1) [[(1 : ℚ)]] [(0 : ℚ)])
            (fun x : ℚ => x) [[[(2 : ℚ)]]]).class_probabilities
          = (LMBert_forward (fun _ : ℚ => (1 : ℚ))
              (LMBert_init (VocabM.mk 1) [[(1 : ℚ)]] [(0 : ℚ)])
              (fun x : ℚ => x) [[[(2 : ℚ)]]]).logits.map
              (fun sq => sq.map (softmaxQ (fun _ : ℚ => (1 : ℚ))))
        ∧ (∀ sq ∈ (LMBert_forward (fun _ : ℚ => (1 : ℚ))
              (LMBert_init (VocabM.mk 1) [[(1 : ℚ)]] [(0 : ℚ)])
              (fun x : ℚ => x) [[[(2 : ℚ)]]]).class_probabilities,
            ∀ v ∈ sq,
              v.length = (VocabM.mk 1).labels_size
                ∧ (∀ x ∈ v, 0 ≤ x) ∧ v.sum = 1)) :=
  ⟨⟨by decide, by decide, fun x => one_pos, by decide⟩,
    LMBert_forward_spec (VocabM.mk 1) [[(1 : ℚ)]] [(0 : ℚ)]
      (fun _ : ℚ => (1 : ℚ)) (fun x : ℚ => x) [[[(2 : ℚ)]]]
      (by decide) (by decide) (fun x => one_pos) (by decide)⟩

end BabyBertSRL
